import Mathlib

/-!
Shallow embedding of the QnA agent core (`src/logic/chat/service.py` and
`src/logic/common/knowledge_base.py`) together with the slice of the
persistence collaborators it drives (`repositories/*.py`).

Conventions of the embedding:
* Python exceptions are modelled with `Except Err`; a Python function that
  catches every exception and returns a string becomes a total function.
* The completion provider, the JSON argument parser, the knowledge-base
  search collaborator and the scheduling of background tasks are external
  effects; each is passed in as an explicit oracle argument.
* The database session is modelled by threading a `DB` value: writes inside
  a request mutate the pending copy, `commit` installs it as the committed
  state, an exception leaves the committed state untouched.
* `asyncio.Task` handles are modelled by numeric ids; the registry
  `ConversationManager._summarization_tasks` is an association list with
  dict semantics, and `asyncio.create_task` appends the task payload to a
  `spawned` journal.
-/

/-- `MAX_AGENT_ITERATIONS` from `service.py`. -/
def MAX_AGENT_ITERATIONS : Nat := 5

/-- `MAX_RECENT_MESSAGES` from `service.py`. -/
def MAX_RECENT_MESSAGES : Nat := 10

/-- `MAX_TOOL_RESULTS` from `service.py`. -/
def MAX_TOOL_RESULTS : Nat := 3

/-- `SUMMARIZE_THRESHOLD` from `service.py`. -/
def SUMMARIZE_THRESHOLD : Nat := 20

/-- `RESUMMARIZE_THRESHOLD` from `service.py`. -/
def RESUMMARIZE_THRESHOLD : Nat := 10

/-- `SYSTEM_PROMPT` from `service.py`. -/
def SYSTEM_PROMPT : String :=
  "You are a helpful AI assistant with access to a knowledge base.\nYou can search the knowledge base to answer questions accurately.\nWhen users ask questions, use the search_kb tool to find relevant information.\nAlways provide clear, accurate answers based on the knowledge base content.\nIf information is not in the knowledge base, say so clearly."

/-- The fixed fallback text persisted by `AgentService._save_error_response`. -/
def ERROR_RESPONSE_CONTENT : String :=
  "I apologize, but I encountered an issue processing your request. Please try again."

/-- A persisted conversation turn (`domain/entities.py`, `Message`).
`created_at` is modelled as an abstract tick. -/
structure Message where
  id : Option Nat
  session_id : String
  role : String
  content : String
  created_at : Nat
deriving DecidableEq, Repr

/-- A conversation-summary row (`domain/entities.py`, `ConversationSummary`;
the `id`/`created_at` columns play no role in the logic and are omitted). -/
structure Summary where
  session_id : String
  message_count : Nat
  summary_text : String
deriving DecidableEq, Repr

/-- The persisted state the core touches: the messages table in insertion
order, the one-row-per-conversation summary table, and a journal of
`update_timestamp` calls on chat sessions. -/
structure DB where
  messages : List Message
  summaries : List Summary
  touches : List String
deriving DecidableEq, Repr

/-- `MessageRepository.create`: insert a row with the next id and return the
entity (`message_repository.py`, `create`). The autoincrement id and the
creation tick are both modelled by the current table length. -/
def DB.createMessage (db : DB) (sid role content : String) : Message × DB :=
  let m : Message :=
    { id := some db.messages.length
      session_id := sid
      role := role
      content := content
      created_at := db.messages.length }
  (m, { db with messages := db.messages ++ [m] })

/-- `MessageRepository.get_by_session`: all rows of the conversation in
creation order (`message_repository.py`, `get_by_session`). -/
def DB.getBySession (db : DB) (sid : String) : List Message :=
  db.messages.filter (fun m => m.session_id == sid)

/-- `SummaryRepository.get_for_session` (`summary_repository.py`). -/
def DB.getSummaryForSession (db : DB) (sid : String) : Option Summary :=
  db.summaries.find? (fun s => s.session_id == sid)

/-- `SummaryRepository.upsert`: update the existing row for the conversation
or insert a new one (`summary_repository.py`, `upsert`). -/
def DB.upsertSummary (db : DB) (sid : String) (count : Nat) (text : String) : DB :=
  if db.summaries.any (fun s => s.session_id == sid) then
    { db with
      summaries := db.summaries.map (fun s =>
        if s.session_id == sid then
          { s with message_count := count, summary_text := text }
        else s) }
  else
    { db with summaries := db.summaries ++ [⟨sid, count, text⟩] }

/-- `SessionRepository.update_timestamp`, reached through
`ConversationManager.update_session_timestamp`: journal the touch. -/
def DB.updateSessionTimestamp (db : DB) (sid : String) : DB :=
  { db with touches := db.touches ++ [sid] }

/-- A knowledge-base item (`domain/entities.py`, `KnowledgeItem`; the unused
`relevance_score` is omitted). -/
structure KnowledgeItem where
  filename : String
  content : String
deriving DecidableEq, Repr

/-- `_load_knowledge_items_cached` (`knowledge_base.py`): the directory state
is the list of `.txt` files with the outcome of reading each (`none` when
`read_text` raises); unreadable files are skipped. -/
def loadKnowledgeItemsCached (kbDir : List (String × Option String)) :
    List KnowledgeItem :=
  kbDir.filterMap (fun f =>
    match f.2 with
    | some content => some ⟨f.1, content⟩
    | none => none)

/-- `KnowledgeBaseService.search` (`knowledge_base.py`): loads every cached
item of the directory; the query is only logged. -/
def KnowledgeBaseService.search (kbDir : List (String × Option String))
    (query : String) : List KnowledgeItem :=
  let cachedItems := loadKnowledgeItemsCached kbDir
  if cachedItems.isEmpty then [] else cachedItems

/-- Python exceptions that cross function boundaries in the core. -/
inductive Err where
  /-- an exception raised by the completion provider -/
  | completion (msg : String)
  /-- an exception raised by (or re-raised from) a summarization task -/
  | taskFailure (msg : String)
  /-- `asyncio.CancelledError` -/
  | cancelled
deriving DecidableEq, Repr

/-- `dict.get(key, default)` on a string-valued argument dict. -/
def dictGetD (args : List (String × String)) (key dflt : String) : String :=
  match args.find? (fun kv => kv.1 == key) with
  | some kv => kv.2
  | none => dflt

/-- `ToolExecutor._execute_kb_search` (`service.py`): reads `query` from the
arguments, calls the search collaborator (an oracle that may raise), and
converts every failure into a text result. -/
def executeKbSearch (kbSearch : String → Except String (List KnowledgeItem))
    (arguments : List (String × String)) : String :=
  let query := dictGetD arguments "query" ""
  if query = "" then
    "Error: No search query provided. Please specify a query parameter."
  else
    match kbSearch query with
    | .error e => "Error searching knowledge base: " ++ e
    | .ok kbItems =>
      if kbItems.isEmpty then
        "No relevant information found in the knowledge base for your query."
      else
        String.intercalate "\n"
          (kbItems.map (fun item =>
            "=== " ++ item.filename ++ " ===\n" ++ item.content ++ "\n"))

/-- `ToolExecutor.execute` (`service.py`): dispatch on the tool name inside a
try block whose `except Exception` clause converts any escaped exception into
a text result, so the call never raises. -/
def ToolExecutor.execute (kbSearch : String → Except String (List KnowledgeItem))
    (tool_name : String) (arguments : List (String × String)) :
    Except Err String :=
  let body : Except Err String :=
    if tool_name = "search_kb" then
      .ok (executeKbSearch kbSearch arguments)
    else
      .ok ("Error: Unknown tool '" ++ tool_name ++ "'. Available tools: search_kb")
  match body with
  | .ok s => .ok s
  | .error e =>
    .ok ("Error executing tool '" ++ tool_name ++ "': " ++ reprStr e)

/-- One tool invocation as returned by the provider
(`tool_call.id`, `tool_call.function.name`, `tool_call.function.arguments`;
the arguments are the raw JSON string). -/
structure ToolCallData where
  id : String
  name : String
  arguments : String
deriving DecidableEq, Repr

/-- An OpenAI-format request message (`ChatCompletion*MessageParam`). -/
inductive ChatMessage where
  | system (content : String)
  | user (content : String)
  | assistant (content : String)
  | assistantWithTools (content : String) (tool_calls : List ToolCallData)
  | tool (tool_call_id : String) (content : String)
deriving DecidableEq, Repr

/-- `MessageFormatter.to_openai_messages` (`service.py`): prepend the system
prompt when asked, map user and assistant turns, skip every other role. -/
def MessageFormatter.to_openai_messages (messages : List Message)
    (include_system : Bool) : List ChatMessage :=
  (if include_system then [ChatMessage.system SYSTEM_PROMPT] else []) ++
    messages.filterMap (fun msg =>
      if msg.role = "user" then some (.user msg.content)
      else if msg.role = "assistant" then some (.assistant msg.content)
      else none)

/-- `MessageFormatter.create_assistant_message_with_tools` (`service.py`). -/
def MessageFormatter.create_assistant_message_with_tools (content : String)
    (tool_calls : List ToolCallData) : ChatMessage :=
  .assistantWithTools content tool_calls

/-- `MessageFormatter.create_tool_message` (`service.py`). -/
def MessageFormatter.create_tool_message (tool_call_id content : String) :
    ChatMessage :=
  .tool tool_call_id content

/-- `AgentService._execute_single_tool_call` (`service.py`): parse the raw
JSON arguments (`parseArgs` is the `json.loads` oracle, `none` meaning
`JSONDecodeError`), run the tool, and always append a tool-result message to
the in-memory list. -/
def executeSingleToolCall
    (kbSearch : String → Except String (List KnowledgeItem))
    (parseArgs : String → Option (List (String × String)))
    (messages : List ChatMessage) (tool_call : ToolCallData) :
    List ChatMessage :=
  let tool_result : String :=
    match parseArgs tool_call.arguments with
    | none =>
      "Error: Invalid tool arguments (malformed JSON). Please try again with valid JSON."
    | some function_args =>
      match ToolExecutor.execute kbSearch tool_call.name function_args with
      | .ok r => r
      | .error e =>
        "Critical error executing tool '" ++ tool_call.name ++ "': " ++ reprStr e
  messages ++ [MessageFormatter.create_tool_message tool_call.id tool_result]

/-- `AgentService._handle_tool_calls` (`service.py`): append the assistant
message carrying the tool calls, then execute each call sequentially. -/
def handleToolCalls
    (kbSearch : String → Except String (List KnowledgeItem))
    (parseArgs : String → Option (List (String × String)))
    (messages : List ChatMessage) (content : String)
    (tool_calls : List ToolCallData) : List ChatMessage :=
  let messages :=
    messages ++ [MessageFormatter.create_assistant_message_with_tools content tool_calls]
  tool_calls.foldl
    (fun msgs tc => executeSingleToolCall kbSearch parseArgs msgs tc) messages

/-- The provider's reply message (`response.choices[0].message`): optional
content and the (possibly empty) list of tool calls. -/
structure LLMMessage where
  content : Option String
  tool_calls : List ToolCallData
deriving DecidableEq, Repr

/-- The completion-provider oracle: the outcome of the n-th
`create_chat_completion` call made by the agent loop. -/
def CompletionOracle : Type := Nat → Except Err LLMMessage

/-- `AgentService._run_agent_loop` (`service.py`): up to
`MAX_AGENT_ITERATIONS` provider calls; a reply with tool calls extends the
in-memory message list and loops, a reply without them persists the final
assistant turn, exhaustion persists `ERROR_RESPONSE_CONTENT`
(`_save_error_response`). Returns the saved turn, the database after the
save, and the total number of provider calls made. -/
def runAgentLoop
    (kbSearch : String → Except String (List KnowledgeItem))
    (parseArgs : String → Option (List (String × String)))
    (completions : CompletionOracle)
    (db : DB) (sid : String) (messages : List ChatMessage)
    (remaining callIdx calls : Nat) : Except Err (Message × DB × Nat) :=
  match remaining with
  | 0 =>
    let (m, db) := db.createMessage sid "assistant" ERROR_RESPONSE_CONTENT
    .ok (m, db, calls)
  | remaining + 1 =>
    match completions callIdx with
    | .error e => .error e
    | .ok llm_message =>
      if llm_message.tool_calls.isEmpty then
        let (m, db) :=
          db.createMessage sid "assistant" (llm_message.content.getD "")
        .ok (m, db, calls + 1)
      else
        let messages :=
          handleToolCalls kbSearch parseArgs messages
            (llm_message.content.getD "") llm_message.tool_calls
        runAgentLoop kbSearch parseArgs completions db sid messages
          remaining (callIdx + 1) (calls + 1)

/-- The payload captured by `asyncio.create_task(self._generate_and_cache_summary(...))`. -/
structure BgTask where
  tid : Nat
  sid : String
  msgs : List Message
  message_count : Nat
  previous_summary : Option String
  previous_count : Nat
deriving DecidableEq, Repr

/-- The in-memory task state owned by `ConversationManager`:
`_summarization_tasks` (a dict keyed by session id, holding task ids), the
journal of created tasks, the ids on which `.cancel()` was called, and the
id the next `create_task` will use. -/
structure Reg where
  tasks : List (String × Nat)
  spawned : List BgTask
  cancelledTids : List Nat
  nextTid : Nat
deriving DecidableEq, Repr

/-- Dict lookup (`d[k]` / `k in d`) on the task registry. -/
def dictLookup (d : List (String × Nat)) (k : String) : Option Nat :=
  (d.find? (fun kv => kv.1 == k)).map (fun kv => kv.2)

/-- Dict assignment `d[k] = v`: drop any entry for `k`, add the new one. -/
def dictInsert (d : List (String × Nat)) (k : String) (v : Nat) :
    List (String × Nat) :=
  d.filter (fun kv => kv.1 != k) ++ [(k, v)]

/-- Dict deletion `del d[k]` guarded by `k in d`. -/
def dictErase (d : List (String × Nat)) (k : String) : List (String × Nat) :=
  d.filter (fun kv => kv.1 != k)

/-- What `await asyncio.wait_for(task, timeout=5.0)` does for a given task:
the task's value arrives in time, the wait times out, the task raises, or
the task is cancelled while awaited. -/
inductive AwaitOutcome where
  | value (s : String)
  | timeout
  | failure (msg : String)
  | cancelled
deriving DecidableEq, Repr

/-- The scheduling oracle for registry tasks: whether `task.done()` is true
at the moment it is checked, and how awaiting the task with the 5-second
bound turns out. -/
structure TaskOracle where
  done : Nat → Bool
  await : Nat → AwaitOutcome

/-- `ConversationManager._get_cached_summary` (`service.py`): the pair
`(summary_text, message_count)` of the conversation's row, or `(None, 0)`. -/
def getCachedSummary (db : DB) (sid : String) : Option String × Nat :=
  match db.getSummaryForSession sid with
  | some summary => (some summary.summary_text, summary.message_count)
  | none => (none, 0)

/-- `ConversationManager._try_get_from_task` (`service.py`): no entry or a
finished task yields `None`; otherwise the task is awaited with a 5-second
bound, and only `TimeoutError` is caught — a failure or a cancellation of
the awaited task propagates as an exception. -/
def tryGetFromTask (oracle : TaskOracle) (reg : Reg) (sid : String) :
    Except Err (Option String) :=
  match dictLookup reg.tasks sid with
  | none => .ok none
  | some tid =>
    if oracle.done tid then .ok none
    else
      match oracle.await tid with
      | .value s => .ok (some s)
      | .timeout => .ok none
      | .failure msg => .error (.taskFailure msg)
      | .cancelled => .error .cancelled

/-- `ConversationManager._start_background_summarization` (`service.py`):
cancel a still-unfinished prior task of the conversation, create the new
task, and register it under the session id. -/
def startBackgroundSummarization (oracle : TaskOracle) (reg : Reg)
    (sid : String) (msgs : List Message) (message_count : Nat)
    (previous_summary : Option String) (previous_count : Nat) : Reg :=
  let reg :=
    match dictLookup reg.tasks sid with
    | some old_tid =>
      if oracle.done old_tid then reg
      else { reg with cancelledTids := reg.cancelledTids ++ [old_tid] }
    | none => reg
  let task : BgTask :=
    ⟨reg.nextTid, sid, msgs, message_count, previous_summary, previous_count⟩
  { reg with
    spawned := reg.spawned ++ [task]
    tasks := dictInsert reg.tasks sid reg.nextTid
    nextTid := reg.nextTid + 1 }

/-- `ConversationManager._generate_new_summary` (`service.py`): when an
OpenAI client is wired in, start the background task; always report no
summary for the current call. -/
def generateNewSummary (oracle : TaskOracle) (hasClient : Bool) (reg : Reg)
    (sid : String) (msgs : List Message) (message_count : Nat)
    (previous_summary : Option String) (previous_count : Nat) :
    Reg × Option String :=
  if hasClient then
    (startBackgroundSummarization oracle reg sid msgs message_count
        previous_summary previous_count,
      none)
  else (reg, none)

/-- `ConversationManager._get_or_generate_summary` (`service.py`). Python
truthiness of the cached text and of the task result is modelled explicitly:
`None` and the empty string both fall through. -/
def getOrGenerateSummary (oracle : TaskOracle) (hasClient : Bool) (db : DB)
    (reg : Reg) (sid : String) (messages : List Message)
    (message_count : Nat) : Reg × Except Err (Option String) :=
  let (cached_summary, cached_count) := getCachedSummary db sid
  let cachedTruthy : Bool := (cached_summary.getD "") != ""
  if cachedTruthy ∧
      (message_count : Int) - (cached_count : Int) < (RESUMMARIZE_THRESHOLD : Int) then
    (reg, .ok cached_summary)
  else
    match tryGetFromTask oracle reg sid with
    | .error e => (reg, .error e)
    | .ok task_result =>
      if (task_result.getD "") != "" then (reg, .ok task_result)
      else
        let previous_summary := if cachedTruthy then cached_summary else none
        let previous_count := if cachedTruthy then cached_count else 0
        let (reg, result) :=
          generateNewSummary oracle hasClient reg sid messages message_count
            previous_summary previous_count
        (reg, .ok result)

/-- The tail of `ConversationManager._summarize_old_messages` (`service.py`):
when the first recent turn's role is `user`, clone it with the bracketed
summary prefix spliced onto its content; otherwise keep the recent turns. -/
def spliceSummary (summary_content : String) (recent_messages : List Message) :
    List Message :=
  match recent_messages with
  | first_msg :: rest =>
    if first_msg.role = "user" then
      { first_msg with
        content :=
          "[Context from earlier in conversation: " ++ summary_content ++
            "]\n\n" ++ first_msg.content } :: rest
    else recent_messages
  | [] => recent_messages

/-- `ConversationManager._summarize_old_messages` (`service.py`): split off
the last `MAX_RECENT_MESSAGES` turns, resolve a summary for the older ones,
and splice it in; with no summary the input is returned unchanged. -/
def summarizeOldMessages (oracle : TaskOracle) (hasClient : Bool) (db : DB)
    (reg : Reg) (sid : String) (messages : List Message) :
    Reg × Except Err (List Message) :=
  if messages.length ≤ MAX_RECENT_MESSAGES then (reg, .ok messages)
  else
    let old_messages := messages.take (messages.length - MAX_RECENT_MESSAGES)
    let recent_messages := messages.drop (messages.length - MAX_RECENT_MESSAGES)
    let old_count := old_messages.length
    match getOrGenerateSummary oracle hasClient db reg sid old_messages old_count with
    | (reg, .error e) => (reg, .error e)
    | (reg, .ok summary_content) =>
      if (summary_content.getD "") = "" then (reg, .ok messages)
      else (reg, .ok (spliceSummary (summary_content.getD "") recent_messages))

/-- `ConversationManager._prune_tool_messages` (`service.py`): scan from the
newest turn, keep at most `MAX_TOOL_RESULTS` tool-role turns, keep all
other turns. -/
def pruneToolMessages (messages : List Message) : List Message :=
  (messages.reverse.foldl
    (fun acc msg =>
      let (pruned, tool_count) := acc
      if msg.role = "tool" then
        if tool_count + 1 > MAX_TOOL_RESULTS then (pruned, tool_count + 1)
        else (msg :: pruned, tool_count + 1)
      else (msg :: pruned, tool_count))
    ([], 0)).1

/-- `ConversationManager.load_conversation_history` (`service.py`). -/
def loadConversationHistory (oracle : TaskOracle) (hasClient : Bool) (db : DB)
    (reg : Reg) (sid : String) (optimize : Bool) :
    Reg × Except Err (List Message × Bool) :=
  let all_messages := db.getBySession sid
  if ¬ optimize ∨ all_messages.length ≤ SUMMARIZE_THRESHOLD then
    (reg, .ok (all_messages, false))
  else
    let pruned_messages := pruneToolMessages all_messages
    if pruned_messages.length > SUMMARIZE_THRESHOLD then
      match summarizeOldMessages oracle hasClient db reg sid pruned_messages with
      | (reg, .error e) => (reg, .error e)
      | (reg, .ok optimized_messages) => (reg, .ok (optimized_messages, true))
    else (reg, .ok (pruned_messages, false))

/-- How the body of a background summarization run turns out: the provider
produced a summary, the body raised, or the task was cancelled at an await
point. -/
inductive BgOutcome where
  | success (summary : String)
  | failure (msg : String)
  | cancelled
deriving DecidableEq, Repr

/-- `ConversationManager._generate_and_cache_summary` (`service.py`), the
background task body: on success the summary is upserted and committed with
its own session; on failure nothing is cached and the exception re-raises;
the `finally` block removes the registry entry in every outcome. -/
def generateAndCacheSummary (outcome : BgOutcome) (db : DB) (reg : Reg)
    (task : BgTask) : DB × Reg × Except Err String :=
  let cleaned : Reg := { reg with tasks := dictErase reg.tasks task.sid }
  match outcome with
  | .success summary =>
    (db.upsertSummary task.sid task.message_count summary, cleaned, .ok summary)
  | .failure msg => (db, cleaned, .error (.taskFailure msg))
  | .cancelled => (db, cleaned, .error .cancelled)

/-- `ConversationManager._handle_background_task_completion` (`service.py`),
the done callback: it retrieves the task's result, catches
`asyncio.CancelledError` and `Exception`, and only logs — no outcome
escapes it. -/
def handleBackgroundTaskCompletion (task_result : Except Err String) :
    Except Err Unit :=
  match task_result with
  | .ok _ => .ok ()
  | .error _ => .ok ()

/-- The state visible across requests: the committed database and the
in-memory task registry (which a rollback does not restore). -/
structure SysState where
  db : DB
  reg : Reg
deriving DecidableEq, Repr

/-- `AgentService.process_message` (`service.py`): inside one database
session, persist the user turn, load the (optimized) history, run the agent
loop, touch the session timestamp and commit; any exception rolls the
session back and re-raises. `hasClient` is `true` because `AgentService`
always wires its OpenAI client into the `ConversationManager`. -/
def processMessage (oracle : TaskOracle)
    (kbSearch : String → Except String (List KnowledgeItem))
    (parseArgs : String → Option (List (String × String)))
    (completions : CompletionOracle)
    (st : SysState) (sid user_message : String) :
    SysState × Except Err Message :=
  let db_session := (st.db.createMessage sid "user" user_message).2
  match loadConversationHistory oracle true db_session st.reg sid true with
  | (reg, .error e) => ({ st with reg := reg }, .error e)
  | (reg, .ok (history, _was_summarized)) =>
    let messages := MessageFormatter.to_openai_messages history true
    match runAgentLoop kbSearch parseArgs completions db_session sid messages
        MAX_AGENT_ITERATIONS 0 0 with
    | .error e => ({ st with reg := reg }, .error e)
    | .ok (assistant_message, db_session, _calls) =>
      let db_session := db_session.updateSessionTimestamp sid
      ({ db := db_session, reg := reg }, .ok assistant_message)

/-- Whether a provider-call outcome is a reply that requests tool calls
(the truthiness test `if llm_message.tool_calls:` on a successful call). -/
def completionHasToolCalls (r : Except Err LLMMessage) : Bool :=
  match r with
  | .ok llm => !llm.tool_calls.isEmpty
  | .error _ => false

/-! Concrete fixtures used by witness theorems. -/

/-- A search collaborator that finds nothing. -/
def kb0 : String → Except String (List KnowledgeItem) := fun _ => .ok []

/-- A `json.loads` oracle for which only the string "valid" parses. -/
def pa0 : String → Option (List (String × String)) := fun s =>
  if s = "valid" then some [("query", "hello")] else none

/-- A tool call whose raw arguments do not parse under `pa0`. -/
def tcT : ToolCallData := ⟨"tc1", "search_kb", "notjson"⟩

/-- A provider reply that requests one tool call. -/
def llmT : LLMMessage := ⟨some "partial", [tcT]⟩

/-- A provider that always answers directly. -/
def cNoTools : CompletionOracle := fun _ => .ok ⟨some "hi", []⟩

/-- A provider that requests tools on every call. -/
def cAllTools : CompletionOracle := fun _ => .ok llmT

/-- A scheduling oracle under which no task is done and every wait times
out. -/
def orIdle : TaskOracle := ⟨fun _ => false, fun _ => .timeout⟩

/-- A scheduling oracle under which no task is done and an awaited task
raises. -/
def orFail : TaskOracle := ⟨fun _ => false, fun _ => .failure "boom"⟩

/-- Turn `i` of the fixture conversation `s`: users at even ticks,
assistants at odd ones. -/
def mkMsg (i : Nat) : Message :=
  ⟨some i, "s", if i % 2 = 0 then "user" else "assistant", "m" ++ toString i, i⟩

/-- Twenty persisted turns of conversation `s`. -/
def msgs20 : List Message := (List.range 20).map mkMsg

/-- A database holding exactly the twenty fixture turns. -/
def db20 : DB := ⟨msgs20, [], []⟩

/-- An empty task registry. -/
def reg0 : Reg := ⟨[], [], [], 0⟩

/-- A registry with one in-flight task (id 0) for conversation `s`. -/
def regT : Reg := ⟨[("s", 0)], [⟨0, "s", [], 0, none, 0⟩], [], 1⟩

/-- The fixture database with a cached summary covering ten turns. -/
def dbCached : DB := ⟨msgs20, [⟨"s", 10, "SUM"⟩], []⟩

/-- Twenty-one fixture turns of conversation `s` with a cached summary row
covering ten of them. -/
def db21c : DB := ⟨(List.range 21).map mkMsg, [⟨"s", 10, "SUM"⟩], []⟩

/-! Theorems. -/

/-- C10: `KnowledgeBaseService.search` returns the same items for every two
query strings over the same directory state — the query influences only
logging, relevance filtering is left to the model. -/
theorem kb_search_query_independent
    (kbDir : List (String × Option String)) (q1 q2 : String) :
    KnowledgeBaseService.search kbDir q1 = KnowledgeBaseService.search kbDir q2 := rfl

/-- C3: with at most `SUMMARIZE_THRESHOLD` persisted turns, the optimize
operation returns exactly the loaded turn list, unmodified and in order,
with the optimization flag false (and without touching the registry). -/
theorem loadHistory_small_identity (oracle : TaskOracle) (hasClient : Bool)
    (db : DB) (reg : Reg) (sid : String)
    (h : (db.getBySession sid).length ≤ SUMMARIZE_THRESHOLD) :
    loadConversationHistory oracle hasClient db reg sid true =
      (reg, .ok (db.getBySession sid, false)) := by
  simp [loadConversationHistory, h]

/-- Witness for C3 on a two-turn conversation. -/
theorem loadHistory_small_identity_witness :
    loadConversationHistory orIdle true ⟨[mkMsg 0, mkMsg 1], [], []⟩ reg0 "s" true =
      (reg0, .ok (DB.getBySession ⟨[mkMsg 0, mkMsg 1], [], []⟩ "s", false)) :=
  loadHistory_small_identity orIdle true ⟨[mkMsg 0, mkMsg 1], [], []⟩ reg0 "s" (by decide)

/-- C5: when a cached summary row exists with nonempty text and fewer than
`RESUMMARIZE_THRESHOLD` turns have accumulated past its coverage, the
cache-or-generate procedure returns the cached text verbatim and leaves the
registry untouched — no background regeneration, no model call. -/
theorem cached_summary_reused_without_regeneration
    (oracle : TaskOracle) (hasClient : Bool) (db : DB) (reg : Reg)
    (sid : String) (messages : List Message) (message_count : Nat) (row : Summary)
    (hrow : db.getSummaryForSession sid = some row)
    (hne : row.summary_text ≠ "")
    (hfresh : (message_count : Int) - (row.message_count : Int) <
      (RESUMMARIZE_THRESHOLD : Int)) :
    getOrGenerateSummary oracle hasClient db reg sid messages message_count =
      (reg, .ok (some row.summary_text)) := by
  simp [getOrGenerateSummary, getCachedSummary, hrow, hne, hfresh]

/-- Witness for C5: the fixture cache row (covering 10 of 11 old turns) is
reused as-is. -/
theorem cached_summary_reused_witness :
    getOrGenerateSummary orIdle true dbCached regT "s" (msgs20.take 11) 11 =
      (regT, .ok (some "SUM")) :=
  cached_summary_reused_without_regeneration orIdle true dbCached regT "s"
    (msgs20.take 11) 11 ⟨"s", 10, "SUM"⟩ (by decide) (by decide) (by decide)

/-- C8: tool execution never raises — for every tool name and argument dict
`ToolExecutor.execute` returns a text; an unknown tool name yields a text
containing "Unknown tool"; malformed JSON arguments yield the fixed
invalid-arguments text appended to the in-memory message list as a
tool-result message; and on a reply that carries tool calls the loop
proceeds to a subsequent completion call. -/
theorem toolExecutor_total_and_loop_continues
    (kbSearch : String → Except String (List KnowledgeItem))
    (parseArgs : String → Option (List (String × String)))
    (completions : CompletionOracle)
    (name : String) (args : List (String × String)) (tool_call : ToolCallData)
    (msgs : List ChatMessage) (db : DB) (sid : String)
    (rem idx calls : Nat) (llm : LLMMessage) :
    (∃ t, ToolExecutor.execute kbSearch name args = .ok t) ∧
    (name ≠ "search_kb" →
      ∃ pre post,
        ToolExecutor.execute kbSearch name args =
          .ok (pre ++ "Unknown tool" ++ post)) ∧
    (parseArgs tool_call.arguments = none →
      executeSingleToolCall kbSearch parseArgs msgs tool_call =
        msgs ++ [ChatMessage.tool tool_call.id
          "Error: Invalid tool arguments (malformed JSON). Please try again with valid JSON."]) ∧
    (completions idx = .ok llm → llm.tool_calls.isEmpty = false →
      runAgentLoop kbSearch parseArgs completions db sid msgs (rem + 1) idx calls =
        runAgentLoop kbSearch parseArgs completions db sid
          (handleToolCalls kbSearch parseArgs msgs (llm.content.getD "")
            llm.tool_calls)
          rem (idx + 1) (calls + 1)) := by
  refine ⟨?_, ?_, ?_, ?_⟩
  · unfold ToolExecutor.execute
    by_cases h : name = "search_kb" <;> simp [h]
  · intro h
    have key : ∀ X : String,
        "Error: Unknown tool '" ++ X = "Error: " ++ ("Unknown tool" ++ (" '" ++ X)) := by
      intro X
      rw [← String.append_assoc, ← String.append_assoc]
      have hlit : ("Error: " ++ "Unknown tool" ++ " '" : String) =
          "Error: Unknown tool '" := by decide
      rw [hlit]
    refine ⟨"Error: ", " '" ++ (name ++ "'. Available tools: search_kb"), ?_⟩
    unfold ToolExecutor.execute
    simp only [if_neg h]
    rw [String.append_assoc, key (name ++ "'. Available tools: search_kb"),
      String.append_assoc "Error: " "Unknown tool"]
  · intro h
    simp [executeSingleToolCall, h, MessageFormatter.create_tool_message]
  · intro hcomp hne
    conv_lhs => rw [runAgentLoop]
    rw [hcomp]
    simp [hne]

/-- Witness for C8 at an unknown tool name and a malformed argument
string. -/
theorem toolExecutor_total_witness :
    (∃ t, ToolExecutor.execute kb0 "bogus" [] = .ok t) ∧
    (∃ pre post,
      ToolExecutor.execute kb0 "bogus" [] = .ok (pre ++ "Unknown tool" ++ post)) ∧
    (executeSingleToolCall kb0 pa0 [] tcT =
      [ChatMessage.tool "tc1"
        "Error: Invalid tool arguments (malformed JSON). Please try again with valid JSON."]) ∧
    (runAgentLoop kb0 pa0 cAllTools db20 "s" [] 1 0 0 =
      runAgentLoop kb0 pa0 cAllTools db20 "s"
        (handleToolCalls kb0 pa0 [] (llmT.content.getD "") llmT.tool_calls) 0 1 1) := by
  obtain ⟨h1, h2, h3, h4⟩ :=
    toolExecutor_total_and_loop_continues kb0 pa0 cAllTools "bogus" [] tcT [] db20
      "s" 0 0 0 llmT
  exact ⟨h1, h2 (by decide), h3 (by decide), h4 rfl (by decide)⟩

/-- C9 counterexample: a background summarization failure DOES cross the
upward boundary. In a 20-turn conversation with an in-flight summarization
task, when the task raises while the request path awaits it inside the
bounded wait, `process_message` surfaces the task's exception to the caller
(only `TimeoutError` is caught in `_try_get_from_task`). -/
theorem summarization_failure_surfaces_counterexample :
    (processMessage orFail kb0 pa0 cNoTools ⟨db20, regT⟩ "s" "hello").2 =
      .error (.taskFailure "boom") := rfl

/-- C9 amended: failures of background summarization are absorbed only off
the awaited path — the registry's done-callback absorbs every outcome, and a
timeout of the bounded 5-unit wait is absorbed — but when the request path
synchronously awaits an in-flight task, a failure or cancellation of that
task propagates as an exception instead of being absorbed. -/
theorem awaited_summarization_failure_propagates
    (oracle : TaskOracle) (reg : Reg) (sid : String) (tid : Nat) (msg : String)
    (hin : dictLookup reg.tasks sid = some tid)
    (hrun : oracle.done tid = false) :
    (oracle.await tid = .timeout → tryGetFromTask oracle reg sid = .ok none) ∧
    (oracle.await tid = .failure msg →
      tryGetFromTask oracle reg sid = .error (.taskFailure msg)) ∧
    (oracle.await tid = .cancelled →
      tryGetFromTask oracle reg sid = .error .cancelled) ∧
    (∀ r : Except Err String, handleBackgroundTaskCompletion r = .ok ()) := by
  refine ⟨?_, ?_, ?_, ?_⟩
  · intro haw
    simp [tryGetFromTask, hin, hrun, haw]
  · intro haw
    simp [tryGetFromTask, hin, hrun, haw]
  · intro haw
    simp [tryGetFromTask, hin, hrun, haw]
  · intro r
    cases r <;> rfl

/-- Witness for the amended C9 at the fixture registry with a failing
in-flight task. -/
theorem awaited_summarization_failure_witness :
    tryGetFromTask orFail regT "s" = .error (.taskFailure "boom") :=
  (awaited_summarization_failure_propagates orFail regT "s" 0 "boom"
      (by decide) (by decide)).2.1 rfl

/-- The agent loop's provider-call counter grows by at most the remaining
iteration budget. -/
theorem runAgentLoop_calls_le
    (kbSearch : String → Except String (List KnowledgeItem))
    (parseArgs : String → Option (List (String × String)))
    (completions : CompletionOracle) (db : DB) (sid : String) :
    ∀ rem idx calls msgs m db' c,
      runAgentLoop kbSearch parseArgs completions db sid msgs rem idx calls =
        .ok (m, db', c) → c ≤ calls + rem := by
  intro rem
  induction rem with
  | zero =>
    intro idx calls msgs m db' c h
    simp only [runAgentLoop] at h
    obtain ⟨-, -, rfl⟩ := by exact Prod.mk.injEq .. ▸ (Except.ok.inj h)
    omega
  | succ rem ih =>
    intro idx calls msgs m db' c h
    rw [runAgentLoop] at h
    cases hc : completions idx with
    | error e => rw [hc] at h; exact absurd h (by simp)
    | ok llm =>
      rw [hc] at h
      by_cases he : llm.tool_calls.isEmpty
      · simp only [he, if_true] at h
        obtain ⟨-, -, rfl⟩ := by exact Prod.mk.injEq .. ▸ (Except.ok.inj h)
        omega
      · simp only [he, if_false] at h
        have := ih (idx + 1) (calls + 1) _ m db' c h
        omega

/-- The loop consults the provider only at call indices below its iteration
budget: two oracles that agree there produce identical runs. -/
theorem runAgentLoop_oracle_bounded
    (kbSearch : String → Except String (List KnowledgeItem))
    (parseArgs : String → Option (List (String × String)))
    (c1 c2 : CompletionOracle) (db : DB) (sid : String) :
    ∀ rem idx calls msgs,
      (∀ i, idx ≤ i → i < idx + rem → c1 i = c2 i) →
      runAgentLoop kbSearch parseArgs c1 db sid msgs rem idx calls =
        runAgentLoop kbSearch parseArgs c2 db sid msgs rem idx calls := by
  intro rem
  induction rem with
  | zero => intro idx calls msgs _; rfl
  | succ rem ih =>
    intro idx calls msgs hagree
    rw [runAgentLoop, runAgentLoop,
      ← hagree idx (Nat.le_refl idx) (by omega)]
    cases completions_idx : c1 idx with
    | error e => rfl
    | ok llm =>
      by_cases he : llm.tool_calls.isEmpty
      · simp [he]
      · simp only [he, if_false]
        exact ih (idx + 1) (calls + 1) _ (fun i h1 h2 => hagree i (by omega) (by omega))

/-- When every remaining provider call requests tools, the loop exhausts its
budget and persists the fixed fallback text. -/
theorem runAgentLoop_exhaust
    (kbSearch : String → Except String (List KnowledgeItem))
    (parseArgs : String → Option (List (String × String)))
    (completions : CompletionOracle) (db : DB) (sid : String) :
    ∀ rem idx calls msgs,
      (∀ i, idx ≤ i → i < idx + rem → completionHasToolCalls (completions i) = true) →
      runAgentLoop kbSearch parseArgs completions db sid msgs rem idx calls =
        .ok ((db.createMessage sid "assistant" ERROR_RESPONSE_CONTENT).1,
          (db.createMessage sid "assistant" ERROR_RESPONSE_CONTENT).2,
          calls + rem) := by
  intro rem
  induction rem with
  | zero => intro idx calls msgs _; rfl
  | succ rem ih =>
    intro idx calls msgs htools
    have h0 := htools idx (Nat.le_refl idx) (by omega)
    rw [runAgentLoop]
    cases hc : completions idx with
    | error e => rw [hc] at h0; exact absurd h0 (by simp [completionHasToolCalls])
    | ok llm =>
      rw [hc] at h0
      have he : llm.tool_calls.isEmpty = false := by
        simpa [completionHasToolCalls] using h0
      simp only [he, Bool.false_eq_true, if_false]
      rw [ih (idx + 1) (calls + 1) _ (fun i h1 h2 => htools i (by omega) (by omega))]
      have : calls + 1 + rem = calls + (rem + 1) := by omega
      rw [this]

/-- C1: for one `processTurn` invocation the agent loop makes at most
`MAX_AGENT_ITERATIONS = 5` completion-provider calls — its call counter is
bounded by 5 and the provider is never consulted beyond call index 5 — and
when all 5 replies still carry tool invocations the loop stops and persists
the fixed fallback apology text as the assistant turn, never the model's
partial output. -/
theorem agentLoop_bounded_and_fallback
    (kbSearch : String → Except String (List KnowledgeItem))
    (parseArgs : String → Option (List (String × String)))
    (completions : CompletionOracle) (db : DB) (sid : String)
    (msgs : List ChatMessage) :
    (∀ m db' c,
      runAgentLoop kbSearch parseArgs completions db sid msgs
          MAX_AGENT_ITERATIONS 0 0 = .ok (m, db', c) → c ≤ 5) ∧
    (∀ c2 : CompletionOracle, (∀ i, i < 5 → completions i = c2 i) →
      runAgentLoop kbSearch parseArgs completions db sid msgs
          MAX_AGENT_ITERATIONS 0 0 =
        runAgentLoop kbSearch parseArgs c2 db sid msgs MAX_AGENT_ITERATIONS 0 0) ∧
    ((∀ i, i < 5 → completionHasToolCalls (completions i) = true) →
      runAgentLoop kbSearch parseArgs completions db sid msgs
          MAX_AGENT_ITERATIONS 0 0 =
        .ok ((db.createMessage sid "assistant" ERROR_RESPONSE_CONTENT).1,
          (db.createMessage sid "assistant" ERROR_RESPONSE_CONTENT).2, 5)) := by
  refine ⟨?_, ?_, ?_⟩
  · intro m db' c h
    simpa using runAgentLoop_calls_le kbSearch parseArgs completions db sid
      MAX_AGENT_ITERATIONS 0 0 msgs m db' c h
  · intro c2 hagree
    exact runAgentLoop_oracle_bounded kbSearch parseArgs completions c2 db sid
      MAX_AGENT_ITERATIONS 0 0 msgs (fun i _ h2 => hagree i (by simpa using h2))
  · intro htools
    simpa using runAgentLoop_exhaust kbSearch parseArgs completions db sid
      MAX_AGENT_ITERATIONS 0 0 msgs (fun i _ h2 => htools i (by simpa using h2))

/-- Witness for C1: a provider that requests tools on all 5 calls makes the
loop persist exactly the fallback text with 5 provider calls. -/
theorem agentLoop_fallback_witness :
    runAgentLoop kb0 pa0 cAllTools db20 "s" [] MAX_AGENT_ITERATIONS 0 0 =
      .ok ((db20.createMessage "s" "assistant" ERROR_RESPONSE_CONTENT).1,
        (db20.createMessage "s" "assistant" ERROR_RESPONSE_CONTENT).2, 5) :=
  (agentLoop_bounded_and_fallback kb0 pa0 cAllTools db20 "s" []).2.2 (by decide)

/-- Within one run the agent loop writes exactly one row: the database it
returns is the input session state with a single assistant turn appended,
and the returned entity is that turn. -/
theorem runAgentLoop_ok_shape
    (kbSearch : String → Except String (List KnowledgeItem))
    (parseArgs : String → Option (List (String × String)))
    (completions : CompletionOracle) (db : DB) (sid : String) :
    ∀ rem idx calls msgs m db' c,
      runAgentLoop kbSearch parseArgs completions db sid msgs rem idx calls =
        .ok (m, db', c) →
      ∃ content, m = (db.createMessage sid "assistant" content).1 ∧
        db' = (db.createMessage sid "assistant" content).2 := by
  intro rem
  induction rem with
  | zero =>
    intro idx calls msgs m db' c h
    simp only [runAgentLoop, Except.ok.injEq, Prod.mk.injEq] at h
    exact ⟨ERROR_RESPONSE_CONTENT, h.1.symm, h.2.1.symm⟩
  | succ rem ih =>
    intro idx calls msgs m db' c h
    rw [runAgentLoop] at h
    cases hc : completions idx with
    | error e => rw [hc] at h; exact absurd h (by simp)
    | ok llm =>
      rw [hc] at h
      by_cases he : llm.tool_calls.isEmpty
      · simp only [he, if_true, Except.ok.injEq, Prod.mk.injEq] at h
        exact ⟨llm.content.getD "", h.1.symm, h.2.1.symm⟩
      · simp only [he, if_false] at h
        exact ih (idx + 1) (calls + 1) _ m db' c h

/-- C2: `process_message` is atomic over the persistence unit. If the run
raises after the user turn was appended, the committed database is exactly
the initial one — the user turn, any assistant turn and the timestamp touch
are all rolled back and the failure is surfaced; on success the committed
database is the initial one with the user turn, one assistant turn and the
activity touch installed together. -/
theorem processMessage_atomic (oracle : TaskOracle)
    (kbSearch : String → Except String (List KnowledgeItem))
    (parseArgs : String → Option (List (String × String)))
    (completions : CompletionOracle) (st : SysState) (sid user_message : String) :
    (∀ e, (processMessage oracle kbSearch parseArgs completions st sid user_message).2 =
        .error e →
      (processMessage oracle kbSearch parseArgs completions st sid user_message).1.db =
        st.db) ∧
    (∀ m, (processMessage oracle kbSearch parseArgs completions st sid user_message).2 =
        .ok m →
      ∃ content,
        (processMessage oracle kbSearch parseArgs completions st sid user_message).1.db =
          (((st.db.createMessage sid "user" user_message).2.createMessage sid
            "assistant" content).2.updateSessionTimestamp sid) ∧
        m = ((st.db.createMessage sid "user" user_message).2.createMessage sid
          "assistant" content).1) := by
  rcases hload : loadConversationHistory oracle true
      ((st.db.createMessage sid "user" user_message).2) st.reg sid true with ⟨reg, res⟩
  cases res with
  | error e =>
    have hpm : processMessage oracle kbSearch parseArgs completions st sid user_message =
        ({ st with reg := reg }, .error e) := by
      simp only [processMessage]
      rw [hload]
    refine ⟨fun e' _ => by rw [hpm], fun m hm => absurd hm (by rw [hpm]; simp)⟩
  | ok hist =>
    rcases hist with ⟨history, was⟩
    rcases hrun : runAgentLoop kbSearch parseArgs completions
        ((st.db.createMessage sid "user" user_message).2) sid
        (MessageFormatter.to_openai_messages history true)
        MAX_AGENT_ITERATIONS 0 0 with e | am
    · have hpm : processMessage oracle kbSearch parseArgs completions st sid user_message =
          ({ st with reg := reg }, .error e) := by
        simp only [processMessage]
        rw [hload]
        dsimp only
        rw [hrun]
      refine ⟨fun e' _ => by rw [hpm], fun m hm => absurd hm (by rw [hpm]; simp)⟩
    · rcases am with ⟨assistant_message, dbf, calls⟩
      have hpm : processMessage oracle kbSearch parseArgs completions st sid user_message =
          ({ db := dbf.updateSessionTimestamp sid, reg := reg }, .ok assistant_message) := by
        simp only [processMessage]
        rw [hload]
        dsimp only
        rw [hrun]
      obtain ⟨content, hc1, hc2⟩ := runAgentLoop_ok_shape kbSearch parseArgs completions
        ((st.db.createMessage sid "user" user_message).2) sid
        MAX_AGENT_ITERATIONS 0 0 _ assistant_message dbf calls hrun
      refine ⟨fun e hm => absurd hm (by rw [hpm]; simp), fun m hm => ?_⟩
      rw [hpm] at hm
      obtain rfl : assistant_message = m := Except.ok.inj hm
      exact ⟨content, by rw [hpm, hc2], hc1⟩

/-- Witness for C2: a summarization failure rolls everything back (the
committed database is unchanged), and a plain successful turn commits the
user turn, one assistant turn and the touch together. -/
theorem processMessage_atomic_witness :
    (processMessage orFail kb0 pa0 cNoTools ⟨db20, regT⟩ "s" "hello").1.db = db20 ∧
    (∃ content,
      (processMessage orIdle kb0 pa0 cNoTools ⟨⟨[], [], []⟩, reg0⟩ "s" "hi").1.db =
        (((DB.createMessage ⟨[], [], []⟩ "s" "user" "hi").2.createMessage "s"
          "assistant" content).2.updateSessionTimestamp "s") ∧
      (⟨some 1, "s", "assistant", "hi", 1⟩ : Message) =
        ((DB.createMessage ⟨[], [], []⟩ "s" "user" "hi").2.createMessage "s"
          "assistant" content).1) :=
  ⟨(processMessage_atomic orFail kb0 pa0 cNoTools ⟨db20, regT⟩ "s" "hello").1
      (.taskFailure "boom") rfl,
    (processMessage_atomic orIdle kb0 pa0 cNoTools ⟨⟨[], [], []⟩, reg0⟩ "s" "hi").2
      ⟨some 1, "s", "assistant", "hi", 1⟩ rfl⟩

/-- The pruning fold leaves a list without tool-role turns untouched. -/
theorem prune_fold_no_tool :
    ∀ (xs p : List Message) (t : Nat),
      (∀ m ∈ xs, m.role ≠ "tool") →
      xs.foldl
        (fun acc msg =>
          let (pruned, tool_count) := acc
          if msg.role = "tool" then
            if tool_count + 1 > MAX_TOOL_RESULTS then (pruned, tool_count + 1)
            else (msg :: pruned, tool_count + 1)
          else (msg :: pruned, tool_count))
        (p, t) = (xs.reverse ++ p, t) := by
  intro xs
  induction xs with
  | nil => intro p t _; simp
  | cons x xs ih =>
    intro p t h
    have hx : x.role ≠ "tool" := h x (by simp)
    simp only [List.foldl_cons, if_neg hx]
    rw [ih (x :: p) t (fun m hm => h m (by simp [hm]))]
    simp

/-- Under the persisted-turn invariant (no tool-role rows),
`_prune_tool_messages` is the identity. -/
theorem pruneToolMessages_id (messages : List Message)
    (h : ∀ m ∈ messages, m.role ≠ "tool") :
    pruneToolMessages messages = messages := by
  unfold pruneToolMessages
  rw [prune_fold_no_tool messages.reverse [] 0 (fun m hm => h m (by simpa using hm))]
  simp

/-- C4: for a conversation with more than `SUMMARIZE_THRESHOLD` persisted
turns, no cached summary and no in-flight regeneration, one optimize call
spawns exactly one background regeneration task, registers it under the
conversation id, and returns the loaded turns unchanged (no summary spliced
in) with the optimization flag true. -/
theorem optimize_starts_single_regeneration (oracle : TaskOracle) (db : DB)
    (reg : Reg) (sid : String)
    (hlen : SUMMARIZE_THRESHOLD < (db.getBySession sid).length)
    (hroles : ∀ m ∈ db.getBySession sid, m.role ≠ "tool")
    (hnosum : db.getSummaryForSession sid = none)
    (hnotask : dictLookup reg.tasks sid = none) :
    loadConversationHistory oracle true db reg sid true =
      ({ reg with
          spawned := reg.spawned ++
            [⟨reg.nextTid, sid,
              (db.getBySession sid).take
                ((db.getBySession sid).length - MAX_RECENT_MESSAGES),
              (db.getBySession sid).length - MAX_RECENT_MESSAGES, none, 0⟩],
          tasks := dictInsert reg.tasks sid reg.nextTid,
          nextTid := reg.nextTid + 1 },
        .ok (db.getBySession sid, true)) := by
  have hprune : pruneToolMessages (db.getBySession sid) = db.getBySession sid :=
    pruneToolMessages_id _ hroles
  have hgen : ∀ (ms : List Message) (mc : Nat),
      getOrGenerateSummary oracle true db reg sid ms mc =
        ({ reg with
            spawned := reg.spawned ++ [⟨reg.nextTid, sid, ms, mc, none, 0⟩],
            tasks := dictInsert reg.tasks sid reg.nextTid,
            nextTid := reg.nextTid + 1 },
          .ok none) := by
    intro ms mc
    simp [getOrGenerateSummary, getCachedSummary, hnosum, tryGetFromTask,
      hnotask, generateNewSummary, startBackgroundSummarization]
  have htake :
      ((db.getBySession sid).take
        ((db.getBySession sid).length - MAX_RECENT_MESSAGES)).length =
        (db.getBySession sid).length - MAX_RECENT_MESSAGES := by
    simp [List.length_take]
  have hsum : summarizeOldMessages oracle true db reg sid (db.getBySession sid) =
      ({ reg with
          spawned := reg.spawned ++
            [⟨reg.nextTid, sid,
              (db.getBySession sid).take
                ((db.getBySession sid).length - MAX_RECENT_MESSAGES),
              (db.getBySession sid).length - MAX_RECENT_MESSAGES, none, 0⟩],
          tasks := dictInsert reg.tasks sid reg.nextTid,
          nextTid := reg.nextTid + 1 },
        .ok (db.getBySession sid)) := by
    have h10 : ¬ ((db.getBySession sid).length ≤ MAX_RECENT_MESSAGES) := by
      intro h
      exact absurd (lt_of_lt_of_le hlen h) (by decide)
    unfold summarizeOldMessages
    rw [if_neg h10]
    dsimp only
    rw [htake, hgen]
    simp
  have hcond : ¬ (¬ (true : Bool) ∨ (db.getBySession sid).length ≤ SUMMARIZE_THRESHOLD) := by
    rintro (h | h)
    · exact h rfl
    · exact absurd hlen (not_lt.mpr h)
  unfold loadConversationHistory
  rw [if_neg hcond, hprune, if_pos hlen, hsum]

/-- Witness for C4 on a 21-turn conversation with empty cache and empty
registry. -/
theorem optimize_starts_single_regeneration_witness :
    loadConversationHistory orIdle true ⟨(List.range 21).map mkMsg, [], []⟩ reg0 "s" true =
      ({ reg0 with
          spawned := reg0.spawned ++
            [⟨reg0.nextTid, "s",
              (DB.getBySession ⟨(List.range 21).map mkMsg, [], []⟩ "s").take
                ((DB.getBySession ⟨(List.range 21).map mkMsg, [], []⟩ "s").length -
                  MAX_RECENT_MESSAGES),
              (DB.getBySession ⟨(List.range 21).map mkMsg, [], []⟩ "s").length -
                MAX_RECENT_MESSAGES, none, 0⟩],
          tasks := dictInsert reg0.tasks "s" reg0.nextTid,
          nextTid := reg0.nextTid + 1 },
        .ok (DB.getBySession ⟨(List.range 21).map mkMsg, [], []⟩ "s", true)) :=
  optimize_starts_single_regeneration orIdle ⟨(List.range 21).map mkMsg, [], []⟩
    reg0 "s" (by decide) (by decide) (by decide) (by decide)

/-- C6: when the pruned turn count exceeds `SUMMARIZE_THRESHOLD`, optimize
splits the turns into old (all but the last `MAX_RECENT_MESSAGES`) and
recent (the last `MAX_RECENT_MESSAGES`); with a summary text available it
returns the recent turns, splicing the summary as a bracketed prefix onto
the content of the first recent turn exactly when that turn's role is
`user` (all other fields and turns unchanged), with the optimization flag
true. -/
theorem optimize_splices_summary (oracle : TaskOracle) (hasClient : Bool)
    (db : DB) (reg reg' : Reg) (sid s : String)
    (hlen : SUMMARIZE_THRESHOLD < (db.getBySession sid).length)
    (hroles : ∀ m ∈ db.getBySession sid, m.role ≠ "tool")
    (hsum : getOrGenerateSummary oracle hasClient db reg sid
        ((db.getBySession sid).take
          ((db.getBySession sid).length - MAX_RECENT_MESSAGES))
        ((db.getBySession sid).length - MAX_RECENT_MESSAGES) =
      (reg', .ok (some s)))
    (hs : s ≠ "") :
    loadConversationHistory oracle hasClient db reg sid true =
      (reg', .ok (spliceSummary s
        ((db.getBySession sid).drop
          ((db.getBySession sid).length - MAX_RECENT_MESSAGES)), true)) ∧
    (∀ first_msg rest,
      (db.getBySession sid).drop
          ((db.getBySession sid).length - MAX_RECENT_MESSAGES) =
        first_msg :: rest →
      (first_msg.role = "user" →
        spliceSummary s (first_msg :: rest) =
          { first_msg with
            content := "[Context from earlier in conversation: " ++ s ++
              "]\n\n" ++ first_msg.content } :: rest) ∧
      (first_msg.role ≠ "user" →
        spliceSummary s (first_msg :: rest) = first_msg :: rest)) := by
  have hprune : pruneToolMessages (db.getBySession sid) = db.getBySession sid :=
    pruneToolMessages_id _ hroles
  have htake :
      ((db.getBySession sid).take
        ((db.getBySession sid).length - MAX_RECENT_MESSAGES)).length =
        (db.getBySession sid).length - MAX_RECENT_MESSAGES := by
    simp [List.length_take]
  have hsplit : summarizeOldMessages oracle hasClient db reg sid (db.getBySession sid) =
      (reg', .ok (spliceSummary s
        ((db.getBySession sid).drop
          ((db.getBySession sid).length - MAX_RECENT_MESSAGES)))) := by
    have h10 : ¬ ((db.getBySession sid).length ≤ MAX_RECENT_MESSAGES) := by
      intro h
      exact absurd (lt_of_lt_of_le hlen h) (by decide)
    unfold summarizeOldMessages
    rw [if_neg h10]
    dsimp only
    rw [htake, hsum]
    simp [hs]
  have hcond : ¬ (¬ (true : Bool) ∨ (db.getBySession sid).length ≤ SUMMARIZE_THRESHOLD) := by
    rintro (h | h)
    · exact h rfl
    · exact absurd hlen (not_lt.mpr h)
  refine ⟨?_, ?_⟩
  · unfold loadConversationHistory
    rw [if_neg hcond, hprune, if_pos hlen, hsplit]
  · intro first_msg rest _
    constructor
    · intro hu
      simp [spliceSummary, hu]
    · intro hnu
      simp [spliceSummary, hnu]

/-- Witness for C6 on the 21-turn fixture with a fresh cached summary: the
first recent turn's role is `assistant`, so the recent turns come back
unchanged. -/
theorem optimize_splices_summary_witness :
    loadConversationHistory orIdle true db21c reg0 "s" true =
      (reg0, .ok (spliceSummary "SUM"
        ((db21c.getBySession "s").drop
          ((db21c.getBySession "s").length - MAX_RECENT_MESSAGES)), true)) ∧
    spliceSummary "SUM" ((db21c.getBySession "s").drop
        ((db21c.getBySession "s").length - MAX_RECENT_MESSAGES)) =
      (db21c.getBySession "s").drop
        ((db21c.getBySession "s").length - MAX_RECENT_MESSAGES) := by
  have h := optimize_splices_summary orIdle true db21c reg0 reg0 "s" "SUM"
    (by decide) (by decide) rfl (by decide)
  refine ⟨h.1, ?_⟩
  have h2 := (h.2 (mkMsg 11) ((List.range 9).map (fun i => mkMsg (i + 12)))
    (by decide)).2 (by decide)
  rw [show (db21c.getBySession "s").drop
      ((db21c.getBySession "s").length - MAX_RECENT_MESSAGES) =
    mkMsg 11 :: (List.range 9).map (fun i => mkMsg (i + 12)) from by decide]
  exact h2

/-- `find?` skips a prefix on which the predicate fails everywhere. -/
theorem find?_append_of_none {α : Type} (p : α → Bool) :
    ∀ (l1 l2 : List α), l1.find? p = none → (l1 ++ l2).find? p = l2.find? p := by
  intro l1
  induction l1 with
  | nil => intro l2 _; rfl
  | cons a l1 ih =>
    intro l2 h
    rw [List.find?_cons] at h
    cases hp : p a with
    | true => rw [hp] at h; exact absurd h (by simp)
    | false =>
      rw [hp] at h
      rw [List.cons_append, List.find?_cons, hp]
      exact ih l2 h

/-- The key being inserted or erased never survives the filter step. -/
theorem find?_filter_ne_none (d : List (String × Nat)) (k : String) :
    (d.filter (fun kv => kv.1 != k)).find? (fun kv => kv.1 == k) = none := by
  rw [List.find?_eq_none]
  intro kv hkv
  have h2 := (List.mem_filter.mp hkv).2
  simp only [bne_iff_ne, ne_eq] at h2
  simp [h2]

/-- Dict assignment registers the new value under the key. -/
theorem dictLookup_dictInsert (d : List (String × Nat)) (k : String) (v : Nat) :
    dictLookup (dictInsert d k v) k = some v := by
  unfold dictLookup dictInsert
  rw [find?_append_of_none _ _ _ (find?_filter_ne_none d k)]
  simp

/-- Dict deletion removes the key. -/
theorem dictLookup_dictErase (d : List (String × Nat)) (k : String) :
    dictLookup (dictErase d k) k = none := by
  unfold dictLookup dictErase
  rw [find?_filter_ne_none d k]
  rfl

/-- Dict assignment keeps the keys pairwise distinct. -/
theorem nodup_keys_dictInsert (d : List (String × Nat)) (k : String) (v : Nat)
    (h : (d.map Prod.fst).Nodup) :
    ((dictInsert d k v).map Prod.fst).Nodup := by
  unfold dictInsert
  rw [List.map_append, List.nodup_append]
  refine ⟨List.Nodup.sublist (List.Sublist.map Prod.fst (List.filter_sublist d)) h,
    List.nodup_singleton k, ?_⟩
  intro a ha hb
  rw [List.mem_map] at ha
  obtain ⟨kv, hkv, rfl⟩ := ha
  have h2 := (List.mem_filter.mp hkv).2
  simp only [bne_iff_ne, ne_eq] at h2
  simp only [List.map_cons, List.map_nil, List.mem_singleton] at hb
  exact h2 hb

/-- Dict deletion keeps the keys pairwise distinct. -/
theorem nodup_keys_dictErase (d : List (String × Nat)) (k : String)
    (h : (d.map Prod.fst).Nodup) :
    ((dictErase d k).map Prod.fst).Nodup :=
  List.Nodup.sublist (List.Sublist.map Prod.fst (List.filter_sublist d)) h

/-- Starting a regeneration always rewrites the registry entry of the
conversation to the new task, whatever the prior entry was. -/
theorem startBackground_tasks_eq (oracle : TaskOracle) (reg : Reg)
    (sid : String) (msgs : List Message) (mc : Nat) (prev : Option String)
    (prevc : Nat) :
    (startBackgroundSummarization oracle reg sid msgs mc prev prevc).tasks =
      dictInsert reg.tasks sid reg.nextTid ∧
    (startBackgroundSummarization oracle reg sid msgs mc prev prevc).nextTid =
      reg.nextTid + 1 := by
  unfold startBackgroundSummarization
  cases hl : dictLookup reg.tasks sid with
  | none => exact ⟨rfl, rfl⟩
  | some tid =>
    by_cases hd : oracle.done tid <;> simp [hd]

/-- C7: the task registry holds at most one entry per conversation id (its
key list stays duplicate-free under both registration and cleanup);
starting a new regeneration cancels a prior unfinished task of the
conversation and registers the replacement under the conversation id; and
the background body's `finally` clause removes the conversation's registry
entry in every outcome — success, failure, or cancellation. -/
theorem registry_single_entry_cancel_cleanup (oracle : TaskOracle) (reg : Reg)
    (sid : String) (msgs : List Message) (mc : Nat) (prev : Option String)
    (prevc : Nat) (outcome : BgOutcome) (db : DB) (task : BgTask) :
    ((reg.tasks.map Prod.fst).Nodup →
      (((startBackgroundSummarization oracle reg sid msgs mc prev
        prevc).tasks.map Prod.fst).Nodup)) ∧
    (dictLookup (startBackgroundSummarization oracle reg sid msgs mc prev
        prevc).tasks sid = some reg.nextTid) ∧
    (∀ old_tid, dictLookup reg.tasks sid = some old_tid →
      oracle.done old_tid = false →
      (startBackgroundSummarization oracle reg sid msgs mc prev
          prevc).cancelledTids = reg.cancelledTids ++ [old_tid]) ∧
    (dictLookup (generateAndCacheSummary outcome db reg task).2.1.tasks
      task.sid = none) ∧
    ((reg.tasks.map Prod.fst).Nodup →
      ((generateAndCacheSummary outcome db reg
        task).2.1.tasks.map Prod.fst).Nodup) := by
  obtain ⟨htasks, -⟩ := startBackground_tasks_eq oracle reg sid msgs mc prev prevc
  refine ⟨?_, ?_, ?_, ?_, ?_⟩
  · intro h
    rw [htasks]
    exact nodup_keys_dictInsert reg.tasks sid reg.nextTid h
  · rw [htasks]
    exact dictLookup_dictInsert reg.tasks sid reg.nextTid
  · intro old_tid hl hd
    unfold startBackgroundSummarization
    rw [hl]
    simp [hd]
  · cases outcome <;>
      simp [generateAndCacheSummary, dictLookup_dictErase]
  · intro h
    cases outcome <;>
      simpa [generateAndCacheSummary] using nodup_keys_dictErase reg.tasks task.sid h

/-- Witness for C7 on the one-task fixture registry. -/
theorem registry_single_entry_witness :
    ((dictInsert regT.tasks "s" regT.nextTid).map Prod.fst).Nodup ∧
    dictLookup (startBackgroundSummarization orIdle regT "s" [] 0 none 0).tasks "s" =
      some regT.nextTid ∧
    (startBackgroundSummarization orIdle regT "s" [] 0 none 0).cancelledTids =
      regT.cancelledTids ++ [0] ∧
    dictLookup (generateAndCacheSummary (.failure "x") db20 regT
      ⟨0, "s", [], 0, none, 0⟩).2.1.tasks "s" = none := by
  obtain ⟨h1, h2, h3, h4, -⟩ := registry_single_entry_cancel_cleanup orIdle regT
    "s" [] 0 none 0 (.failure "x") db20 ⟨0, "s", [], 0, none, 0⟩
  refine ⟨?_, h2, h3 0 (by decide) (by decide), h4⟩
  rw [← (startBackground_tasks_eq orIdle regT "s" [] 0 none 0).1]
  exact h1 (by decide)
